import Mathlib

/-!
Verification of the type-resolution core of the vyper compiler's semantic layer:
a shallow embedding of `vyper/semantics/types/utils.py` (the `StringEnum`
ordered-enumeration utility, `type_from_abi`, and the annotation resolver) and
`vyper/semantics/types/value/boolean.py` (the `BoolT` primitive), together with
theorems checking the specified behaviour.

External collaborators that the embedded code calls (the `Namespace` lookup,
the `SArrayT`/`TupleT` constructors, `get_index_value`, the levenshtein
suggestion helper, and the inherited defaults of the primitive-type capability
contract) are not part of the two embedded source files; each such definition
is marked `Modelled from the spec:` and follows the specification text.
-/

/-! ## Python string primitives used by the source -/

/-- Python whitespace test, as used by `int()` for stripping. -/
def isPyWs (c : Char) : Bool :=
  c = ' ' ∨ c = '\t' ∨ c = '\n' ∨ c = '\r' ∨ c = '\x0b' ∨ c = '\x0c'

/-- ASCII decimal digit test. -/
def isPyDigit (c : Char) : Bool := '0' ≤ c ∧ c ≤ '9'

/-- Numeric value of an ASCII digit character. -/
def digitVal (c : Char) : Nat := c.toNat - 48

/-- Strip leading and trailing Python whitespace (the implicit strip of `int()`). -/
def stripWs (s : List Char) : List Char :=
  ((s.dropWhile isPyWs).reverse.dropWhile isPyWs).reverse

/-- Accumulate the value of a digit string; `none` on any non-digit character. -/
def parseDigitsAux (acc : Nat) : List Char → Option Nat
  | [] => some acc
  | c :: cs => if isPyDigit c then parseDigitsAux (acc * 10 + digitVal c) cs else none

/-- Sign-and-digits part of Python `int(s)` after whitespace stripping: an
optional single sign followed by a nonempty run of decimal digits; every
other input raises `ValueError` (here: `none`). -/
def pyParseIntCore : List Char → Option Int
  | [] => none
  | c :: rest =>
      if c = '-' then
        if rest = [] then none else (parseDigitsAux 0 rest).map (fun k => -(k : Int))
      else if c = '+' then
        if rest = [] then none else (parseDigitsAux 0 rest).map (fun k => (k : Int))
      else (parseDigitsAux 0 (c :: rest)).map (fun k => (k : Int))

/-- Python `int(s)`. -/
def pyParseInt (s : List Char) : Option Int := pyParseIntCore (stripWs s)

/-- Python `s.rstrip(c)` for a single strip character: drop every trailing `c`. -/
def pyRstrip (c : Char) (s : List Char) : List Char :=
  (s.reverse.dropWhile (fun x => x = c)).reverse

/-- Python `s.rsplit("[", maxsplit=1)` when `"[" in s`: split at the last
occurrence of `'['`, returning the part before it and the part after it;
`none` when the character does not occur. -/
def splitLastBracket : List Char → Option (List Char × List Char)
  | [] => none
  | c :: cs =>
      match splitLastBracket cs with
      | some (v, l) => some (c :: v, l)
      | none => if c = '[' then some ([], cs) else none

/-- ASCII lowercase of one character (Python `str.lower` on the names that
occur in enumeration declarations). -/
def charLower (c : Char) : Char :=
  if 'A' ≤ c ∧ c ≤ 'Z' then Char.ofNat (c.toNat + 32) else c

/-- ASCII lowercase of a string. -/
def strLower (s : String) : String := (s.toList.map charLower).asString

/-- Decimal digit character for a value below ten. -/
def digitChar (n : Nat) : Char := Char.ofNat (48 + n)

/-- Decimal digit string of a natural number, with explicit fuel (the fuel is
sufficient whenever it exceeds the number, see `natDigitsAux_fuel`). -/
def natDigitsAux : Nat → Nat → List Char
  | 0, _ => []
  | fuel + 1, n => if n < 10 then [digitChar n] else natDigitsAux fuel (n / 10) ++ [digitChar (n % 10)]

/-- Decimal digit string of a natural number. -/
def natDigits (n : Nat) : List Char := natDigitsAux (n + 1) n

/-! ## AST nodes (`vyper.ast`)

The annotation resolver inspects `Tuple`, `Name`, `Subscript` and integer
nodes; the primitive-type contract inspects constant nodes and operator
nodes.  The node shapes below carry exactly the payloads the embedded code
reads. -/

/-- Constant-literal syntax nodes (`vy_ast.Constant` subclasses) as far as the
boolean type inspects them: a `NameConstant` carries `True`, `False` or `None`
(here `Option Bool`), other constant shapes carry their value. -/
inductive ConstNode where
  | nameConstant (value : Option Bool)
  | intConst (value : Int)
  | strConst (value : String)
deriving DecidableEq

/-- Shape tag of a constant node, for the `_valid_literal` membership test. -/
inductive LitShape where
  | nameConstantShape
  | intShape
  | strShape
deriving DecidableEq

/-- Shape of a constant node (Python `isinstance` against node classes). -/
def ConstNode.shape : ConstNode → LitShape
  | .nameConstant _ => .nameConstantShape
  | .intConst _ => .intShape
  | .strConst _ => .strShape

/-- Python `node.value is None` on a constant node. -/
def ConstNode.valueIsNone : ConstNode → Bool
  | .nameConstant none => true
  | _ => false

/-- Operator payloads of unary, binary and augmented-assignment nodes. -/
inductive VyOp where
  | notOp
  | uSub
  | add
  | sub
  | mult
  | div
  | mod
  | pow
deriving DecidableEq

/-- Numeric-operator syntax nodes (`UnaryOp`, `BinOp`, `AugAssign`). -/
inductive NumOpNode where
  | unaryOp (op : VyOp)
  | binOp (op : VyOp)
  | augAssign (op : VyOp)
deriving DecidableEq

/-- The `op` attribute of a numeric-operator node. -/
def NumOpNode.op : NumOpNode → VyOp
  | .unaryOp o => o
  | .binOp o => o
  | .augAssign o => o

/-- Boolean-operator kinds (`vy_ast.And`, `vy_ast.Or`). -/
inductive BoolOpKind where
  | andOp
  | orOp
deriving DecidableEq

/-- Boolean-operator syntax nodes (`vy_ast.BoolOp`). -/
structure BoolOpNode where
  op : BoolOpKind
deriving DecidableEq

/-- Annotation AST nodes consumed by the annotation resolver: a leaf
identifier (`Name`), a subscript (`Subscript` with its `value` and `slice`),
a tuple of annotations, an integer literal (as a subscript index), and a
catch-all for nodes with no identifier descendant (e.g. other literals). -/
inductive VyNode where
  | name (id : String)
  | subscript (value : VyNode) (slice : VyNode)
  | tup (elements : List VyNode)
  | intNode (value : Int)
  | otherNode

/-- Python `node.get("id")`: the `id` attribute when the node is a `Name`. -/
def VyNode.getId : VyNode → Option String
  | .name id => some id
  | _ => none

mutual
/-- The id of the leftmost `Name` descendant (including the node itself), as
produced by `next(i.id for i in node.get_descendants(vy_ast.Name, include_self=True))`:
a depth-first, source-order traversal. -/
def firstName : VyNode → Option String
  | .name id => some id
  | .subscript v s =>
      match firstName v with
      | some id => some id
      | none => firstName s
  | .tup els => firstNameList els
  | .intNode _ => none
  | .otherNode => none
/-- Leftmost `Name` id among a list of sibling nodes. -/
def firstNameList : List VyNode → Option String
  | [] => none
  | x :: xs =>
      match firstName x with
      | some id => some id
      | none => firstNameList xs
end

/-! ## Error taxonomy

Modelled from the spec: the user-facing kinds `UnknownType`, `InvalidType`,
`StructureException`, `InvalidLiteral`, the internal-only kinds
`VyperInternalException` and `CompilerPanic`, the namespace failure
`UndeclaredDefinition`, and the Python builtins `KeyError` and `ValueError`.
The spec presents these as distinct error kinds; in particular the library's
`UndeclaredDefinition` is not a subclass of the Python builtin `KeyError`, so
a `KeyError` handler does not catch it. -/
inductive PyErr where
  | unknownType (msg : List Char)
  | invalidType (msg : List Char)
  | structureException (msg : List Char)
  | invalidLiteral (msg : List Char) (node : ConstNode)
  | invalidOperation (msg : List Char)
  | undeclaredDefinition (msg : List Char)
  | keyError (msg : List Char)
  | valueError (msg : List Char)
  | compilerPanic (msg : List Char)
  | vyperInternal (msg : List Char)

/-! ## Type objects -/

/-- Type objects (`VyperType` and refinements): a leaf type with its canonical
identifier `_id` and its `_as_array` capability flag; the fixed-size array
composition; the tuple composition. -/
inductive VType where
  | prim (id : String) (asArray : Bool)
  | sarray (elem : VType) (len : Int)
  | tuple (members : List VType)

/-- Python `getattr(type_obj, "_as_array", False)`: the capability flag of a
leaf type; composite types do not set the attribute. -/
def VType.asArrayAttr : VType → Bool
  | .prim _ a => a
  | _ => false

/-- Modelled from the spec: the `SArrayT` constructor (in
`vyper/semantics/types/subscriptable.py`, outside the embedded files).  Its
invariant requires a statically known non-negative integer length; a length
rejected by the invariant signals `InvalidType`. -/
def SArrayT (value_type : VType) (length : Int) : Except PyErr VType :=
  if length < 0 then .error (.invalidType ("invalid length for array type".toList))
  else .ok (.sarray value_type length)

/-- Modelled from the spec: the `TupleT` constructor (outside the embedded
files) packages an ordered sequence of member types. -/
def TupleT (members : List VType) : VType := .tuple members

/-- Modelled from the spec: the Namespace is a mapping from identifier to
type object, read-only for this core. -/
abbrev Namespace := List (String × VType)

/-- Modelled from the spec: `namespace[name]` returns the type object declared
under `name` and fails with `UndeclaredDefinition` when the name is absent. -/
def nsGetItem (ns : Namespace) (name : String) : Except PyErr VType :=
  match ns.lookup name with
  | some t => .ok t
  | none => .error (.undeclaredDefinition (("\x27" ++ name ++ "\x27 has not been declared.").toList))

/-! ## `type_from_abi` -/

/-- Normalization of known ABI spellings to canonical internal names
(`type_from_abi`, lines 85-88): `fixed168x10` to `decimal`; `string` and
`bytes` to their capitalized internal names. -/
def normAbi (s : List Char) : List Char :=
  let s1 := if s = "fixed168x10".toList then "decimal".toList else s
  if s1 = "string".toList then "String".toList
  else if s1 = "bytes".toList then "Bytes".toList
  else s1

/-- Recursion core of `type_from_abi` with explicit fuel; the recursion in the
source is on a strictly shorter string, so any fuel above the string length is
sufficient (`typeFromAbiCore_fuel`).  The branch structure mirrors the source:
the array branch converts a `ValueError` of `int()` into `UnknownType`, a
recursive `UnknownType` into `UnknownType` for the whole string, an
`InvalidType` of the `SArrayT` constructor into `UnknownType`; the leaf branch
looks the string up in the namespace with a handler for `KeyError` only. -/
def typeFromAbiCore (ns : Namespace) : Nat → List Char → Except PyErr VType
  | 0, _ => .error (.vyperInternal ("recursion limit".toList))
  | fuel + 1, s =>
      let type_string := normAbi s
      match splitLastBracket type_string with
      | some (value_type_string, length_str) =>
          match pyParseInt (pyRstrip ']' length_str) with
          | none => .error (.unknownType (("ABI type has an invalid length: ".toList) ++ type_string))
          | some length =>
              match typeFromAbiCore ns fuel value_type_string with
              | .error (.unknownType _) =>
                  .error (.unknownType (("ABI contains unknown type: ".toList) ++ type_string))
              | .error e => .error e
              | .ok value_type =>
                  match SArrayT value_type length with
                  | .error (.invalidType _) =>
                      .error (.unknownType (("ABI contains unknown type: ".toList) ++ type_string))
                  | .error e => .error e
                  | .ok t => .ok t
      | none =>
          match nsGetItem ns type_string.asString with
          | .error (.keyError _) =>
              .error (.unknownType (("ABI contains unknown type: ".toList) ++ type_string))
          | .error e => .error e
          | .ok t => .ok t

/-- `type_from_abi` on the `type` field of an ABI descriptor, as a function of
that type string. -/
def typeFromAbiStr (ns : Namespace) (s : List Char) : Except PyErr VType :=
  typeFromAbiCore ns (s.length + 1) s

/-- `type_from_abi(abi_type)` reads `abi_type["type"]`; entry point on a
`String` for readability of the statements. -/
def type_from_abi (ns : Namespace) (s : String) : Except PyErr VType :=
  typeFromAbiStr ns s.toList

/-! ## Worked namespace

Modelled from the spec: a builtin namespace for concrete examples, holding a
few leaf type objects under their canonical identifiers (`bool` is the
embedded `BoolT` with `_id = "bool"` and `_as_array = True`). -/

/-- The boolean type object (`BoolT._id`, `BoolT._as_array` from the source). -/
def boolPrim : VType := .prim "bool" true

/-- A 256-bit unsigned integer leaf type object. -/
def uint256Prim : VType := .prim "uint256" true

/-- An 8-bit unsigned integer leaf type object. -/
def uint8Prim : VType := .prim "uint8" true

/-- The decimal leaf type object (canonical internal name of `fixed168x10`). -/
def decimalPrim : VType := .prim "decimal" true

/-- The capitalized internal string type object. -/
def stringPrim : VType := .prim "String" false

/-- The capitalized internal bytes type object. -/
def bytesPrim : VType := .prim "Bytes" false

/-- A worked builtin namespace. -/
def nsStd : Namespace :=
  [("bool", boolPrim), ("uint256", uint256Prim), ("uint8", uint8Prim),
   ("decimal", decimalPrim), ("String", stringPrim), ("Bytes", bytesPrim)]

example : type_from_abi nsStd "bool" = .ok boolPrim := rfl

example : type_from_abi nsStd "uint256[4]" = .ok (.sarray uint256Prim 4) := rfl

example : type_from_abi nsStd "uint256[2][3]" = .ok (.sarray (.sarray uint256Prim 2) 3) := rfl

example : type_from_abi nsStd "fixed168x10" = .ok decimalPrim := rfl

example : type_from_abi nsStd "uint8[abc]" =
    .error (.unknownType ("ABI type has an invalid length: uint8[abc]".toList)) := rfl

example : type_from_abi nsStd "bogus" =
    .error (.undeclaredDefinition ("\x27bogus\x27 has not been declared.".toList)) := rfl

example : type_from_abi nsStd "bogus[3]" =
    .error (.undeclaredDefinition ("\x27bogus\x27 has not been declared.".toList)) := rfl

example : type_from_abi nsStd "uint8[-1]" =
    .error (.unknownType ("ABI contains unknown type: uint8[-1]".toList)) := rfl

/-! ## `type_from_annotation` (embedded here as `typeFromAnn`) -/

/-- Modelled from the spec: `get_index_value(node.slice)` (in
`vyper/semantics/validation/utils.py`, outside the embedded files) extracts a
statically-known integer length from a subscript index; the spec does not fix
the failure kind for other index shapes. -/
def get_index_value : VyNode → Except PyErr Int
  | .intNode v => .ok v
  | _ => .error (.invalidType ("subscript index is not a statically known integer".toList))

/-- Fuel-bounded edit distance between two strings. -/
def levAux : Nat → List Char → List Char → Nat
  | 0, a, b => a.length + b.length
  | _ + 1, [], b => b.length
  | _ + 1, a, [] => a.length
  | fuel + 1, a₁ :: as, b₁ :: bs =>
      if a₁ = b₁ then levAux fuel as bs
      else 1 + min (levAux fuel as (b₁ :: bs)) (min (levAux fuel (a₁ :: as) bs) (levAux fuel as bs))

/-- Modelled from the spec: `get_levenshtein_error_suggestions(key, namespace, 0.3)`
(outside the embedded files) augments an unknown-name diagnostic with the
nearest declared name within an edit-distance threshold, or with no text when
none qualifies. -/
def getLevenshteinSuggestions (key : String) (ns : Namespace) : String :=
  let k := key.toList
  match ns.find? (fun p =>
      decide (10 * levAux (k.length + p.1.length) k p.1.toList ≤ 3 * max 1 key.length)) with
  | some p => "Did you mean \x27" ++ p.1 ++ "\x27?"
  | none => ""

/-- Namespace lookup of the leftmost identifier of an annotation
(`type_from_annotation`, lines 140-146): an `UndeclaredDefinition` from the
namespace is translated to `UnknownType` with nearest-match suggestions. -/
def resolveLeftmostName (ns : Namespace) (type_name : String) : Except PyErr VType :=
  match nsGetItem ns type_name with
  | .error (.undeclaredDefinition _) =>
      .error (.unknownType (("No builtin or user-defined type named \x27" ++ type_name
        ++ "\x27. " ++ getLevenshteinSuggestions type_name ns).toList))
  | .error e => .error e
  | .ok type_obj => .ok type_obj

mutual
/-- `type_from_annotation(node)`: tuple annotations recurse element-wise in
source order; otherwise the leftmost `Name` id is looked up (absence of any
identifier is a `StructureException`), and a subscript annotation over an
`_as_array`-capable type whose base is not the `DynArray` spelling becomes a
fixed-size array over the recursively resolved base, with the subscript index
as length. -/
def typeFromAnn (ns : Namespace) : VyNode → Except PyErr VType
  | .tup elements =>
      match typeFromAnnList ns elements with
      | .error e => .error e
      | .ok types => .ok (TupleT types)
  | .subscript value slice =>
      match firstName (.subscript value slice) with
      | none => .error (.structureException ("Invalid syntax for type declaration".toList))
      | some type_name =>
          match resolveLeftmostName ns type_name with
          | .error e => .error e
          | .ok type_obj =>
              if type_obj.asArrayAttr = true ∧ value.getId ≠ some "DynArray" then
                match get_index_value slice with
                | .error e => .error e
                | .ok length =>
                    match typeFromAnn ns value with
                    | .error e => .error e
                    | .ok value_type => SArrayT value_type length
              else .ok type_obj
  | node =>
      match firstName node with
      | none => .error (.structureException ("Invalid syntax for type declaration".toList))
      | some type_name => resolveLeftmostName ns type_name
/-- Element-wise resolution of a tuple annotation, in source order
(`tuple(type_from_annotation(v) for v in values)`). -/
def typeFromAnnList (ns : Namespace) : List VyNode → Except PyErr (List VType)
  | [] => .ok []
  | x :: xs =>
      match typeFromAnn ns x with
      | .error e => .error e
      | .ok t =>
          match typeFromAnnList ns xs with
          | .error e => .error e
          | .ok ts => .ok (t :: ts)
end

example : typeFromAnn nsStd (.name "bool") = .ok boolPrim := rfl

example : typeFromAnn nsStd (.subscript (.name "bool") (.intNode 3)) =
    .ok (.sarray boolPrim 3) := rfl

example : typeFromAnn nsStd (.subscript (.subscript (.name "bool") (.intNode 2)) (.intNode 3)) =
    .ok (.sarray (.sarray boolPrim 2) 3) := rfl

example : typeFromAnn nsStd (.tup [.name "bool", .name "uint256"]) =
    .ok (.tuple [boolPrim, uint256Prim]) := rfl

example : typeFromAnn nsStd (.intNode 7) =
    .error (.structureException ("Invalid syntax for type declaration".toList)) := rfl

example : typeFromAnn [("String", stringPrim)] (.subscript (.name "String") (.intNode 3)) =
    .ok stringPrim := rfl

/-! ## `StringEnum` -/

/-- An enumeration family: its class identity and its declared variant names
in declaration order (`enum.Enum` subclass with `auto()` members). -/
structure EnumClass where
  clsName : String
  variants : List String
deriving DecidableEq

/-- A member of an enumeration family: the family and the member's position in
declaration order. -/
structure EnumMember where
  cls : EnumClass
  idx : Nat
deriving DecidableEq

/-- The declared name of a member. -/
def EnumMember.declName (m : EnumMember) : String := m.cls.variants.getD m.idx ""

/-- The member's string value: `_generate_next_value_` returns `name.lower()`. -/
def EnumMember.value (m : EnumMember) : String := strLower m.declName

/-- `options()`: the full member list in declaration order (`list(cls)`). -/
def EnumClass.opts (cls : EnumClass) : List EnumMember :=
  (List.range cls.variants.length).map (fun i => ⟨cls, i⟩)

/-- `values()`: the member values in declaration order. -/
def EnumClass.vals (cls : EnumClass) : List String :=
  cls.opts.map EnumMember.value

/-- `is_valid_value(value)`: membership of `value` among the member values. -/
def EnumClass.is_valid_value (cls : EnumClass) (value : String) : Bool :=
  cls.vals.contains value

/-- Python `list.index(x)`: position of the first occurrence, `ValueError`
when absent. -/
def pyListIndex {α : Type} [DecidableEq α] : List α → α → Except PyErr Nat
  | [], _ => .error (.valueError ("x not in list".toList))
  | x :: xs, a => if x = a then .ok 0 else (pyListIndex xs a).map (fun n => n + 1)

/-- `__eq__`: `CompilerPanic` unless `other` is of the same family
(`isinstance(other, self.__class__)`); identity comparison otherwise. -/
def EnumMember.eq (a b : EnumMember) : Except PyErr Bool :=
  if a.cls = b.cls then .ok (a = b)
  else .error (.compilerPanic ("Can only compare like types.".toList))

/-- `__lt__`: `CompilerPanic` across families; otherwise comparison of the
members' positions in `options()`. -/
def EnumMember.lt (a b : EnumMember) : Except PyErr Bool :=
  if a.cls = b.cls then
    match pyListIndex a.cls.opts a with
    | .error e => .error e
    | .ok i =>
        match pyListIndex a.cls.opts b with
        | .error e => .error e
        | .ok j => .ok (i < j)
  else .error (.compilerPanic ("Can only compare like types.".toList))

/-- `__le__`: `self.__eq__(other) or self.__lt__(other)`, with Python
short-circuit evaluation. -/
def EnumMember.le (a b : EnumMember) : Except PyErr Bool :=
  match a.eq b with
  | .error e => .error e
  | .ok true => .ok true
  | .ok false => a.lt b

/-- `__gt__`: `not self.__le__(other)`. -/
def EnumMember.gt (a b : EnumMember) : Except PyErr Bool :=
  match a.le b with
  | .error e => .error e
  | .ok v => .ok (!v)

/-- `__ge__`: `self.__eq__(other) or self.__gt__(other)`. -/
def EnumMember.ge (a b : EnumMember) : Except PyErr Bool :=
  match a.eq b with
  | .error e => .error e
  | .ok true => .ok true
  | .ok false => a.gt b

/-- `_missing_`: constructing a member from an unrecognized value raises
`VyperInternalException`. -/
def EnumClass.fromValue (cls : EnumClass) (value : String) : Except PyErr EnumMember :=
  match cls.opts.find? (fun m => m.value = value) with
  | some m => .ok m
  | none => .error (.vyperInternal ((value ++ " is not a valid " ++ cls.clsName).toList))

/-! ## `BoolT` and the primitive-type capability contract -/

/-- Modelled from the spec: the inherited `validate_literal` of the capability
contract (in `vyper/semantics/types/bases.py`, outside the embedded files)
accepts exactly the literal node shapes listed in `_valid_literal` and fails
with `InvalidLiteral` identifying the node otherwise. -/
def baseValidateLiteral (valid_literal : List LitShape) (node : ConstNode) : Except PyErr Unit :=
  if valid_literal.contains node.shape then .ok ()
  else .error (.invalidLiteral ("Invalid literal".toList) node)

/-- Spelled-out operator name for diagnostics. -/
def VyOp.opName : VyOp → String
  | .notOp => "Not"
  | .uSub => "USub"
  | .add => "Add"
  | .sub => "Sub"
  | .mult => "Mult"
  | .div => "Div"
  | .mod => "Mod"
  | .pow => "Pow"

/-- Modelled from the spec: the inherited `validate_numeric_op` default
rejects every numeric operator with a type error naming the operator and the
type. -/
def baseValidateNumericOp (type_id : String) (node : NumOpNode) : Except PyErr Unit :=
  .error (.invalidOperation (("Cannot perform " ++ node.op.opName ++ " on " ++ type_id).toList))

/-- `BoolT._id`. -/
def BoolT_id : String := "bool"

/-- `BoolT._as_array`. -/
def BoolT_as_array : Bool := true

/-- `BoolT._valid_literal`: the `NameConstant` shape only. -/
def BoolT_valid_literal : List LitShape := [.nameConstantShape]

/-- `BoolT.validate_boolean_op`: unconditional acceptance. -/
def BoolT.validate_boolean_op (_node : BoolOpNode) : Except PyErr Unit := .ok ()

/-- `BoolT.validate_numeric_op`: logical negation is accepted; every other
operator is delegated to the inherited rejecting default. -/
def BoolT.validate_numeric_op (node : NumOpNode) : Except PyErr Unit :=
  match node.op with
  | .notOp => .ok ()
  | _ => baseValidateNumericOp BoolT_id node

/-- `BoolT.validate_literal`: the inherited shape check first, then rejection
of a null-valued constant with `InvalidLiteral` identifying the node. -/
def BoolT.validate_literal (node : ConstNode) : Except PyErr Unit :=
  match baseValidateLiteral BoolT_valid_literal node with
  | .error e => .error e
  | .ok _ =>
      if node.valueIsNone then
        .error (.invalidLiteral ("Invalid literal for type \x27bool\x27".toList) node)
      else .ok ()

/-- `BoolT.abi_type` is the ABI boolean descriptor; descriptors are a one-field
projection here. -/
def BoolT.abi_type : String := "bool"

example : BoolT.validate_literal (.nameConstant (some true)) = .ok () := rfl

example : BoolT.validate_literal (.nameConstant none) =
    .error (.invalidLiteral ("Invalid literal for type \x27bool\x27".toList) (.nameConstant none)) := rfl

example : BoolT.validate_numeric_op (.unaryOp .notOp) = .ok () := rfl

example : EnumClass.vals ⟨"F", ["A", "B", "C"]⟩ = ["a", "b", "c"] := rfl

example : EnumMember.lt ⟨⟨"F", ["A", "B", "C"]⟩, 0⟩ ⟨⟨"F", ["A", "B", "C"]⟩, 1⟩ = .ok true := rfl

example : EnumMember.eq ⟨⟨"F", ["A"]⟩, 0⟩ ⟨⟨"G", ["A"]⟩, 0⟩ =
    .error (.compilerPanic ("Can only compare like types.".toList)) := rfl

/-! ## Helper lemmas: strings and digits -/

theorem splitLastBracket_lt {s v l : List Char} (h : splitLastBracket s = some (v, l)) :
    v.length < s.length ∧ l.length < s.length := by
  induction s generalizing v l with
  | nil => simp [splitLastBracket] at h
  | cons c cs ih =>
      simp only [splitLastBracket] at h
      cases hrec : splitLastBracket cs with
      | some p =>
          obtain ⟨v0, l0⟩ := p
          rw [hrec] at h
          obtain ⟨rfl, rfl⟩ : c :: v0 = v ∧ l0 = l := by
            constructor <;> [skip; skip] <;> injection h with h2 <;> cases h2 <;> rfl
          have := ih hrec
          constructor <;> simp <;> omega
      | none =>
          rw [hrec] at h
          by_cases hc : c = '['
          · rw [if_pos hc] at h
            obtain ⟨rfl, rfl⟩ : ([] : List Char) = v ∧ cs = l := by
              constructor <;> injection h with h2 <;> cases h2 <;> rfl
            constructor <;> simp
          · rw [if_neg hc] at h; exact absurd h (by simp)

theorem splitLastBracket_of_not_mem {s : List Char} (h : '[' ∉ s) :
    splitLastBracket s = none := by
  induction s with
  | nil => rfl
  | cons c cs ih =>
      simp only [List.mem_cons, not_or] at h
      simp only [splitLastBracket, ih h.2, if_neg (Ne.symm h.1)]

theorem splitLastBracket_append (v d : List Char) (hd : '[' ∉ d) :
    splitLastBracket (v ++ '[' :: d) = some (v, d) := by
  induction v with
  | nil => simp [splitLastBracket, splitLastBracket_of_not_mem hd]
  | cons c cs ih => simp [splitLastBracket, ih]

theorem normAbi_of_ne {s : List Char} (h1 : s ≠ "fixed168x10".toList)
    (h2 : s ≠ "string".toList) (h3 : s ≠ "bytes".toList) : normAbi s = s := by
  simp only [normAbi, if_neg h1, if_neg h2, if_neg h3]

theorem normAbi_of_mem_bracket {s : List Char} (h : '[' ∈ s) : normAbi s = s := by
  have h1 : s ≠ "fixed168x10".toList := by rintro rfl; revert h; decide
  have h2 : s ≠ "string".toList := by rintro rfl; revert h; decide
  have h3 : s ≠ "bytes".toList := by rintro rfl; revert h; decide
  exact normAbi_of_ne h1 h2 h3

theorem normAbi_length (s : List Char) : (normAbi s).length ≤ s.length := by
  by_cases h1 : s = "fixed168x10".toList
  · rw [h1]; decide
  by_cases h2 : s = "string".toList
  · rw [h2]; decide
  by_cases h3 : s = "bytes".toList
  · rw [h3]; decide
  rw [normAbi_of_ne h1 h2 h3]

theorem isPyDigit_digitChar {k : Nat} (h : k < 10) : isPyDigit (digitChar k) = true := by
  revert h; revert k; decide

theorem digitVal_digitChar {k : Nat} (h : k < 10) : digitVal (digitChar k) = k := by
  revert h; revert k; decide

theorem natDigitsAux_fuel : ∀ f1 f2 n : Nat, n < f1 → n < f2 →
    natDigitsAux f1 n = natDigitsAux f2 n := by
  intro f1
  induction f1 with
  | zero => omega
  | succ a ih =>
      intro f2 n h1 h2
      cases f2 with
      | zero => omega
      | succ b =>
          simp only [natDigitsAux]
          by_cases h10 : n < 10
          · simp [h10]
          · have hd : n / 10 < n := Nat.div_lt_self (by omega) (by omega)
            rw [if_neg h10, if_neg h10, ih b (n / 10) (by omega) (by omega)]

theorem natDigits_unfold (n : Nat) :
    natDigits n = if n < 10 then [digitChar n] else natDigits (n / 10) ++ [digitChar (n % 10)] := by
  by_cases h10 : n < 10
  · rw [if_pos h10]
    show natDigitsAux (n + 1) n = _
    rw [natDigitsAux, if_pos h10]
  · rw [if_neg h10]
    show natDigitsAux (n + 1) n = _
    rw [natDigitsAux, if_neg h10]
    congr 1
    exact natDigitsAux_fuel n (n / 10 + 1) (n / 10) (by omega) (by omega)

theorem natDigits_all_digit : ∀ n : Nat, ∀ c ∈ natDigits n, isPyDigit c = true := by
  intro n
  induction n using Nat.strong_induction_on with
  | _ n ih =>
      rw [natDigits_unfold]
      by_cases h10 : n < 10
      · simp only [if_pos h10, List.mem_singleton]
        rintro c rfl
        exact isPyDigit_digitChar h10
      · simp only [if_neg h10, List.mem_append, List.mem_singleton]
        rintro c (hc | rfl)
        · exact ih (n / 10) (Nat.div_lt_self (by omega) (by omega)) c hc
        · exact isPyDigit_digitChar (Nat.mod_lt n (by omega))

theorem natDigits_ne_nil (n : Nat) : natDigits n ≠ [] := by
  rw [natDigits_unfold]
  by_cases h10 : n < 10 <;> simp [h10]

theorem isPyDigit_char_facts {c : Char} (h : isPyDigit c = true) :
    isPyWs c = false ∧ c ≠ '[' ∧ c ≠ ']' ∧ c ≠ '-' ∧ c ≠ '+' := by
  refine ⟨?_, ?_, ?_, ?_, ?_⟩
  · by_contra hb
    have hws : isPyWs c = true := by revert hb; cases hv : isPyWs c <;> simp
    simp only [isPyWs, decide_eq_true_eq] at hws
    rcases hws with rfl | rfl | rfl | rfl | rfl | rfl <;> revert h <;> decide
  all_goals rintro rfl <;> revert h <;> decide

theorem parseDigitsAux_append (acc : Nat) (xs ys : List Char) :
    parseDigitsAux acc (xs ++ ys) =
      match parseDigitsAux acc xs with
      | some a => parseDigitsAux a ys
      | none => none := by
  induction xs generalizing acc with
  | nil => rfl
  | cons c cs ih =>
      show parseDigitsAux acc (c :: (cs ++ ys)) = _
      rw [parseDigitsAux, parseDigitsAux]
      by_cases hc : isPyDigit c = true
      · rw [if_pos hc, if_pos hc, ih]
      · rw [if_neg hc, if_neg hc]

theorem parse_natDigits : ∀ n acc : Nat,
    parseDigitsAux acc (natDigits n) = some (acc * 10 ^ (natDigits n).length + n) := by
  intro n
  induction n using Nat.strong_induction_on with
  | _ n ih =>
      intro acc
      rw [natDigits_unfold]
      by_cases h10 : n < 10
      · rw [if_pos h10]
        simp only [parseDigitsAux, if_pos (isPyDigit_digitChar h10), digitVal_digitChar h10]
        simp
      · rw [if_neg h10]
        have hd : n / 10 < n := Nat.div_lt_self (by omega) (by omega)
        rw [parseDigitsAux_append, ih (n / 10) hd acc]
        have hm : n % 10 < 10 := Nat.mod_lt n (by omega)
        simp only [parseDigitsAux, if_pos (isPyDigit_digitChar hm), digitVal_digitChar hm]
        simp only [List.length_append, List.length_singleton]
        congr 1
        have : (acc * 10 ^ (natDigits (n / 10)).length + n / 10) * 10 + n % 10 =
            acc * (10 ^ (natDigits (n / 10)).length * 10) + (n / 10 * 10 + n % 10) := by ring
        rw [this, Nat.pow_succ]
        omega

theorem dropWhile_eq_self_of_all {p : Char → Bool} {l : List Char}
    (h : ∀ c ∈ l, p c = false) : l.dropWhile p = l := by
  cases l with
  | nil => rfl
  | cons c cs => exact List.dropWhile_cons_of_neg (by simp [h c (by simp)])

theorem stripWs_of_all {l : List Char} (h : ∀ c ∈ l, isPyWs c = false) : stripWs l = l := by
  unfold stripWs
  rw [dropWhile_eq_self_of_all h, dropWhile_eq_self_of_all (by intro c hc; exact h c (by simpa using hc)),
    List.reverse_reverse]

theorem pyRstrip_append_of_all {d : List Char} (h : ∀ c ∈ d, c ≠ ']') :
    pyRstrip ']' (d ++ [']']) = d := by
  have hall : ∀ c ∈ d.reverse, (fun x => decide (x = ']')) c = false := by
    intro c hc
    simpa using h c (List.mem_reverse.mp hc)
  unfold pyRstrip
  rw [List.reverse_append, List.reverse_singleton, List.singleton_append,
    List.dropWhile_cons_of_pos (by decide), dropWhile_eq_self_of_all hall,
    List.reverse_reverse]

theorem pyParseInt_natDigits (n : Nat) : pyParseInt (natDigits n) = some (n : Int) := by
  have hall := natDigits_all_digit n
  have hws : stripWs (natDigits n) = natDigits n :=
    stripWs_of_all (fun c hc => (isPyDigit_char_facts (hall c hc)).1)
  unfold pyParseInt
  rw [hws]
  have hne := natDigits_ne_nil n
  cases hd : natDigits n with
  | nil => exact absurd hd hne
  | cons c cs =>
      have hcdig : isPyDigit c = true := hall c (by rw [hd]; simp)
      have hfacts := isPyDigit_char_facts hcdig
      have hc1 : c ≠ '-' := hfacts.2.2.2.1
      have hc2 : c ≠ '+' := hfacts.2.2.2.2
      have hp : parseDigitsAux 0 (c :: cs) = some n := by
        rw [← hd, parse_natDigits n 0]; simp
      simp only [pyParseIntCore, if_neg hc1, if_neg hc2, hp, Option.map_some]
      rfl

/-! ## Helper lemmas: `type_from_abi` -/

theorem mem_of_lookup_eq_some {ns : Namespace} {k : String} {t : VType}
    (h : ns.lookup k = some t) : (k, t) ∈ ns := by
  obtain ⟨l1, l2, rfl, -⟩ := List.lookup_eq_some_iff.mp h
  simp

theorem typeFromAbiCore_fuel (ns : Namespace) :
    ∀ f (s : List Char), s.length < f → typeFromAbiCore ns f s = typeFromAbiStr ns s := by
  intro f
  induction f using Nat.strong_induction_on with
  | _ f ih =>
      intro s hs
      cases f with
      | zero => omega
      | succ a =>
          show typeFromAbiCore ns (a + 1) s = typeFromAbiCore ns (s.length + 1) s
          simp only [typeFromAbiCore]
          cases hsplit : splitLastBracket (normAbi s) with
          | none => rfl
          | some p =>
              obtain ⟨v, lstr⟩ := p
              dsimp only
              have hvlen : v.length < s.length :=
                lt_of_lt_of_le (splitLastBracket_lt hsplit).1 (normAbi_length s)
              cases hparse : pyParseInt (pyRstrip ']' lstr) with
              | none => rfl
              | some length =>
                  have e1 : typeFromAbiCore ns a v = typeFromAbiStr ns v :=
                    ih a (by omega) v (by omega)
                  have e2 : typeFromAbiCore ns s.length v = typeFromAbiStr ns v :=
                    ih s.length (by omega) v hvlen
                  simp only [e1, e2]

theorem typeFromAbi_leaf (ns : Namespace) (name : List Char) (t : VType)
    (hb : '[' ∉ name) (h1 : name ≠ "fixed168x10".toList) (h2 : name ≠ "string".toList)
    (h3 : name ≠ "bytes".toList) (hl : ns.lookup name.asString = some t) :
    typeFromAbiStr ns name = .ok t := by
  show typeFromAbiCore ns (name.length + 1) name = .ok t
  simp only [typeFromAbiCore, normAbi_of_ne h1 h2 h3, splitLastBracket_of_not_mem hb,
    nsGetItem, hl]

theorem typeFromAbi_array (ns : Namespace) (v : List Char) (elem : VType) (n : Nat)
    (h : typeFromAbiStr ns v = .ok elem) :
    typeFromAbiStr ns (v ++ '[' :: (natDigits n ++ [']'])) = .ok (.sarray elem (n : Int)) := by
  have hd : '[' ∉ natDigits n ++ [']'] := by
    intro hmem
    rcases List.mem_append.mp hmem with hm | hm
    · exact (isPyDigit_char_facts (natDigits_all_digit n _ hm)).2.1 rfl
    · simp at hm
  have hmem : '[' ∈ v ++ '[' :: (natDigits n ++ [']']) := by simp
  have hnorm := normAbi_of_mem_bracket hmem
  have hsplit : splitLastBracket (v ++ '[' :: (natDigits n ++ [']'])) =
      some (v, natDigits n ++ [']']) := splitLastBracket_append v _ hd
  have hstrip : pyRstrip ']' (natDigits n ++ [']']) = natDigits n :=
    pyRstrip_append_of_all (fun c hc => (isPyDigit_char_facts (natDigits_all_digit n c hc)).2.2.1)
  have hparse : pyParseInt (pyRstrip ']' (natDigits n ++ [']'])) = some (n : Int) := by
    rw [hstrip]; exact pyParseInt_natDigits n
  have hvlen : v.length < (v ++ '[' :: (natDigits n ++ [']'])).length := by simp
  show typeFromAbiCore ns ((v ++ '[' :: (natDigits n ++ [']'])).length + 1) _ = _
  simp only [typeFromAbiCore, hnorm, hsplit, hparse]
  rw [typeFromAbiCore_fuel ns _ v hvlen, h]
  have hpos : ¬((n : Int) < 0) := by omega
  simp only [SArrayT, if_neg hpos]

theorem typeFromAbiStr_ok_inv (ns : Namespace) (s : List Char) (t : VType)
    (h : typeFromAbiStr ns s = .ok t) :
    (splitLastBracket (normAbi s) = none ∧ ns.lookup (normAbi s).asString = some t) ∨
    (∃ v elem len, v.length < s.length ∧ typeFromAbiStr ns v = .ok elem ∧ 0 ≤ len ∧
      t = VType.sarray elem len) := by
  rw [show typeFromAbiStr ns s = typeFromAbiCore ns (s.length + 1) s from rfl] at h
  simp only [typeFromAbiCore] at h
  cases hsplit : splitLastBracket (normAbi s) with
  | none =>
      left
      rw [hsplit] at h
      refine ⟨rfl, ?_⟩
      cases hget : nsGetItem ns (normAbi s).asString with
      | error e => rw [hget] at h; cases e <;> simp at h
      | ok t0 =>
          rw [hget] at h
          simp only [Except.ok.injEq] at h
          subst h
          unfold nsGetItem at hget
          cases hlk : List.lookup (normAbi s).asString ns with
          | none => rw [hlk] at hget; simp at hget
          | some u =>
              rw [hlk] at hget
              simp only [Except.ok.injEq] at hget
              exact congrArg some hget
  | some p =>
      obtain ⟨v, lstr⟩ := p
      right
      rw [hsplit] at h
      dsimp only at h
      have hvlen : v.length < s.length :=
        lt_of_lt_of_le (splitLastBracket_lt hsplit).1 (normAbi_length s)
      cases hparse : pyParseInt (pyRstrip ']' lstr) with
      | none => rw [hparse] at h; simp at h
      | some len =>
          rw [hparse] at h
          rw [typeFromAbiCore_fuel ns s.length v hvlen] at h
          cases hrec : typeFromAbiStr ns v with
          | error e => rw [hrec] at h; cases e <;> simp at h
          | ok elem =>
              rw [hrec] at h
              dsimp only at h
              by_cases hneg : len < 0
              · simp [SArrayT, if_pos hneg] at h
              · rw [show SArrayT elem len = .ok (.sarray elem len) from by
                    simp [SArrayT, if_neg hneg]] at h
                simp only [Except.ok.injEq] at h
                exact ⟨v, elem, len, hvlen, hrec, by omega, h.symm⟩

/-! ## Round-tripping through the canonical descriptor -/

/-- Modelled from the spec: the canonical descriptor of a resolved type
object: a leaf type's canonical identifier `_id`; an array's element
descriptor followed by the bracketed length.  Tuple types never arise from
`type_from_abi` (shown in `abi_roundtrip`), so their descriptor is a dummy. -/
def canonicalDescriptor : VType → List Char
  | .prim id _ => id.toList
  | .sarray elem len => canonicalDescriptor elem ++ '[' :: (natDigits len.toNat ++ [']'])
  | .tuple _ => []

/-- Modelled from the spec: well-formedness of a namespace: every declared
type object is a leaf type registered under its own canonical identifier,
that identifier free of array syntax and distinct from the three ABI
normalization aliases. -/
def NsWF (ns : Namespace) : Prop :=
  ∀ p ∈ ns,
    match p.2 with
    | VType.prim id _ => ns.lookup id = some p.2 ∧ '[' ∉ id.toList ∧
        id ≠ "fixed168x10" ∧ id ≠ "string" ∧ id ≠ "bytes"
    | _ => False

theorem string_toList_inj {a b : String} (h : a.toList = b.toList) : a = b := by
  cases a
  cases b
  simp only [String.toList] at h
  exact congrArg String.mk h

theorem roundtrip_leaf (ns : Namespace) (hwf : NsWF ns) {key : String} {t : VType}
    (hlk : ns.lookup key = some t) :
    typeFromAbiStr ns (canonicalDescriptor t) = .ok t := by
  have hw := hwf _ (mem_of_lookup_eq_some hlk)
  cases t with
  | prim id asArr =>
      dsimp only at hw
      obtain ⟨hlk2, hb, h1, h2, h3⟩ := hw
      exact typeFromAbi_leaf ns id.toList _ hb
        (fun he => h1 (string_toList_inj he))
        (fun he => h2 (string_toList_inj he))
        (fun he => h3 (string_toList_inj he)) hlk2
  | sarray elem len => dsimp only at hw
  | tuple ms => dsimp only at hw

theorem abi_roundtrip_core (ns : Namespace) (hwf : NsWF ns) :
    ∀ N (s : List Char) (t : VType), s.length ≤ N → typeFromAbiStr ns s = .ok t →
      typeFromAbiStr ns (canonicalDescriptor t) = .ok t := by
  intro N
  induction N with
  | zero =>
      intro s t hN h
      rcases typeFromAbiStr_ok_inv ns s t h with ⟨-, hlk⟩ | ⟨v, elem, len, hv, -, -, -⟩
      · exact roundtrip_leaf ns hwf hlk
      · omega
  | succ N ih =>
      intro s t hN h
      rcases typeFromAbiStr_ok_inv ns s t h with ⟨-, hlk⟩ | ⟨v, elem, len, hv, hrec, hlen, heq⟩
      · exact roundtrip_leaf ns hwf hlk
      · subst heq
        have hcanon := ih v elem (by omega) hrec
        have harr := typeFromAbi_array ns (canonicalDescriptor elem) elem len.toNat hcanon
        rw [Int.toNat_of_nonneg hlen] at harr
        exact harr

/-! ## Helper lemmas: annotation resolution -/

theorem resolveLeftmostName_ok {ns : Namespace} {nm : String} {t : VType}
    (h : ns.lookup nm = some t) : resolveLeftmostName ns nm = .ok t := by
  simp [resolveLeftmostName, nsGetItem, h]

theorem typeFromAnn_subscript_array {ns : Namespace} {v s : VyNode} {type_name : String}
    {t vt : VType} {n : Int}
    (hfn : firstName (.subscript v s) = some type_name)
    (hlk : ns.lookup type_name = some t)
    (has : t.asArrayAttr = true)
    (hdyn : v.getId ≠ some "DynArray")
    (hidx : get_index_value s = .ok n)
    (hrec : typeFromAnn ns v = .ok vt)
    (hn : 0 ≤ n) :
    typeFromAnn ns (.subscript v s) = .ok (.sarray vt n) := by
  rw [typeFromAnn, hfn]
  dsimp only
  rw [resolveLeftmostName_ok hlk]
  dsimp only
  rw [if_pos ⟨has, hdyn⟩, hidx]
  dsimp only
  rw [hrec]
  dsimp only
  simp [SArrayT, show ¬(n < 0) by omega]

theorem typeFromAnn_subscript_leaf {ns : Namespace} {v s : VyNode} {type_name : String}
    {t : VType}
    (hfn : firstName (.subscript v s) = some type_name)
    (hlk : ns.lookup type_name = some t)
    (hcond : t.asArrayAttr = false ∨ v.getId = some "DynArray") :
    typeFromAnn ns (.subscript v s) = .ok t := by
  rw [typeFromAnn, hfn]
  dsimp only
  rw [resolveLeftmostName_ok hlk]
  dsimp only
  rw [if_neg]
  rintro ⟨h1, h2⟩
  rcases hcond with hc | hc
  · rw [hc] at h1; cases h1
  · exact h2 hc

theorem typeFromAnnList_ok_length {ns : Namespace} :
    ∀ {els : List VyNode} {ts : List VType},
      typeFromAnnList ns els = .ok ts → ts.length = els.length := by
  intro els
  induction els with
  | nil =>
      intro ts h
      rw [typeFromAnnList] at h
      simp only [Except.ok.injEq] at h
      rw [← h]
      rfl
  | cons x xs ih =>
      intro ts h
      rw [typeFromAnnList] at h
      cases hx : typeFromAnn ns x with
      | error e => rw [hx] at h; simp at h
      | ok t =>
          rw [hx] at h
          dsimp only at h
          cases hxs : typeFromAnnList ns xs with
          | error e => rw [hxs] at h; simp at h
          | ok ts0 =>
              rw [hxs] at h
              simp only [Except.ok.injEq] at h
              rw [← h]
              simp [ih hxs]

theorem typeFromAnnList_ok_get {ns : Namespace} :
    ∀ {els : List VyNode} {ts : List VType},
      typeFromAnnList ns els = .ok ts →
      ∀ i (hi : i < els.length) (hj : i < ts.length),
        typeFromAnn ns (els.get ⟨i, hi⟩) = .ok (ts.get ⟨i, hj⟩) := by
  intro els
  induction els with
  | nil => intro ts h i hi hj; simp at hi
  | cons x xs ih =>
      intro ts h i hi hj
      rw [typeFromAnnList] at h
      cases hx : typeFromAnn ns x with
      | error e => rw [hx] at h; simp at h
      | ok t =>
          rw [hx] at h
          dsimp only at h
          cases hxs : typeFromAnnList ns xs with
          | error e => rw [hxs] at h; simp at h
          | ok ts0 =>
              rw [hxs] at h
              simp only [Except.ok.injEq] at h
              subst h
              cases i with
              | zero => simpa using hx
              | succ k => exact ih hxs k (by simpa using hi) (by simpa using hj)

theorem typeFromAnnList_of_all {ns : Namespace} :
    ∀ {els : List VyNode} {ts : List VType}, ts.length = els.length →
      (∀ i (hi : i < els.length) (hj : i < ts.length),
        typeFromAnn ns (els.get ⟨i, hi⟩) = .ok (ts.get ⟨i, hj⟩)) →
      typeFromAnnList ns els = .ok ts := by
  intro els
  induction els with
  | nil =>
      intro ts hlen _
      rw [typeFromAnnList]
      cases ts with
      | nil => rfl
      | cons a as => simp at hlen
  | cons x xs ih =>
      intro ts hlen hall
      cases ts with
      | nil => simp at hlen
      | cons t ts0 =>
          have h0 : typeFromAnn ns x = .ok t := by simpa using hall 0 (by simp) (by simp)
          rw [typeFromAnnList, h0]
          dsimp only
          rw [ih (by simpa using hlen)
            (fun i hi hj => by simpa using hall (i + 1) (by simpa using hi) (by simpa using hj))]

/-! ## Helper lemmas: `StringEnum` -/

theorem pyListIndex_map_inj {α β : Type} [DecidableEq α] [DecidableEq β] {f : α → β}
    (hf : Function.Injective f) (l : List α) (a : α) :
    pyListIndex (l.map f) (f a) = pyListIndex l a := by
  induction l with
  | nil => rfl
  | cons x xs ih =>
      simp only [List.map_cons, pyListIndex]
      by_cases hx : x = a
      · subst hx
        rw [if_pos rfl, if_pos rfl]
      · rw [if_neg (fun he => hx (hf he)), if_neg hx, ih]

theorem pyListIndex_range {n i : Nat} (h : i < n) :
    pyListIndex (List.range n) i = .ok i := by
  induction n generalizing i with
  | zero => omega
  | succ n ih =>
      rw [List.range_succ_eq_map]
      cases i with
      | zero => simp [pyListIndex]
      | succ j =>
          simp only [pyListIndex, if_neg (show (0 : Nat) ≠ j + 1 by omega)]
          rw [show j + 1 = Nat.succ j from rfl,
            pyListIndex_map_inj Nat.succ_injective (List.range n) j, ih (by omega)]
          rfl

theorem enumMember_mk_injective (cls : EnumClass) :
    Function.Injective (fun k => (⟨cls, k⟩ : EnumMember)) := by
  intro a b hab
  simpa using congrArg EnumMember.idx hab

theorem pyListIndex_opts {cls : EnumClass} {i : Nat} (h : i < cls.variants.length) :
    pyListIndex cls.opts ⟨cls, i⟩ = .ok i := by
  unfold EnumClass.opts
  rw [show (⟨cls, i⟩ : EnumMember) = (fun k => (⟨cls, k⟩ : EnumMember)) i from rfl,
    pyListIndex_map_inj (enumMember_mk_injective cls), pyListIndex_range h]

theorem range_map_getD {α β : Type} (f : α → β) (d : α) (l : List α) :
    (List.range l.length).map (fun i => f (l.getD i d)) = l.map f := by
  induction l with
  | nil => rfl
  | cons x xs ih =>
      rw [List.length_cons, List.range_succ_eq_map, List.map_cons, List.map_map, List.map_cons]
      refine congrArg (fun ys => f ((x :: xs).getD 0 d) :: ys) ?_
      rw [← ih]
      apply List.map_congr_left
      intro i hi
      simp

theorem enumClass_vals (cls : EnumClass) : cls.vals = cls.variants.map strLower := by
  unfold EnumClass.vals EnumClass.opts EnumMember.value EnumMember.declName
  rw [List.map_map]
  exact range_map_getD strLower "" cls.variants

theorem enumClass_is_valid_value (cls : EnumClass) (s : String) :
    cls.is_valid_value s = true ↔ ∃ m ∈ cls.opts, m.value = s := by
  unfold EnumClass.is_valid_value EnumClass.vals
  rw [List.contains_iff_exists_mem_beq]
  constructor
  · rintro ⟨v, hv, hbeq⟩
    obtain ⟨m, hm, rfl⟩ := List.mem_map.mp hv
    exact ⟨m, hm, (beq_iff_eq.mp hbeq).symm⟩
  · rintro ⟨m, hm, rfl⟩
    exact ⟨m.value, List.mem_map.mpr ⟨m, hm, rfl⟩, beq_iff_eq.mpr rfl⟩

theorem enum_eq_same (cls : EnumClass) (i j : Nat) :
    EnumMember.eq ⟨cls, i⟩ ⟨cls, j⟩ = .ok (decide (i = j)) := by
  unfold EnumMember.eq
  rw [if_pos rfl]
  congr 1
  simp [EnumMember.mk.injEq]

theorem enum_lt_same (cls : EnumClass) (i j : Nat) (hi : i < cls.variants.length)
    (hj : j < cls.variants.length) :
    EnumMember.lt ⟨cls, i⟩ ⟨cls, j⟩ = .ok (decide (i < j)) := by
  unfold EnumMember.lt
  rw [if_pos rfl]
  dsimp only
  rw [pyListIndex_opts hi, pyListIndex_opts hj]

theorem enum_le_refl (cls : EnumClass) (i : Nat) :
    EnumMember.le ⟨cls, i⟩ ⟨cls, i⟩ = .ok true := by
  unfold EnumMember.le
  rw [enum_eq_same cls i i, decide_eq_true rfl]

theorem enum_lt_irrefl (cls : EnumClass) (i : Nat) (hi : i < cls.variants.length) :
    EnumMember.lt ⟨cls, i⟩ ⟨cls, i⟩ = .ok false := by
  rw [enum_lt_same cls i i hi hi, decide_eq_false (Nat.lt_irrefl i)]

/-! ## Claim theorems -/

/-- C1: `type_from_abi` resolves a leaf name by namespace lookup and a
bracketed suffix by splitting off the outermost suffix first and resolving
the remaining prefix recursively; in particular `bool`, `uint256[4]` and
`uint256[2][3]` resolve to the specified type objects. -/
theorem claim_C1_abi_structural :
    (∀ (ns : Namespace) (name : List Char) (t : VType),
        '[' ∉ name → name ≠ "fixed168x10".toList → name ≠ "string".toList →
        name ≠ "bytes".toList → ns.lookup name.asString = some t →
        typeFromAbiStr ns name = .ok t) ∧
    (∀ (ns : Namespace) (v : List Char) (elem : VType) (n : Nat),
        typeFromAbiStr ns v = .ok elem →
        typeFromAbiStr ns (v ++ '[' :: (natDigits n ++ [']'])) = .ok (.sarray elem (n : Int))) ∧
    type_from_abi nsStd "bool" = .ok boolPrim ∧
    type_from_abi nsStd "uint256[4]" = .ok (.sarray uint256Prim 4) ∧
    type_from_abi nsStd "uint256[2][3]" = .ok (.sarray (.sarray uint256Prim 2) 3) :=
  ⟨typeFromAbi_leaf, typeFromAbi_array, rfl, rfl, rfl⟩

theorem claim_C1_abi_structural_witness :
    typeFromAbiStr nsStd "uint8".toList = .ok uint8Prim ∧
    typeFromAbiStr nsStd ("uint8".toList ++ '[' :: (natDigits 2 ++ [']'])) =
      .ok (.sarray uint8Prim 2) :=
  ⟨claim_C1_abi_structural.1 nsStd "uint8".toList uint8Prim (by decide) (by decide)
      (by decide) (by decide) rfl,
   claim_C1_abi_structural.2.1 nsStd "uint8".toList uint8Prim 2 rfl⟩

/-- C2: a subscript annotation whose leftmost identifier resolves to an
`_as_array`-capable type, with a base that is not the `DynArray` spelling,
resolves to the fixed-size array over the recursively resolved base with the
statically-known index value as length. -/
theorem claim_C2_annotation_subscript_array :
    ∀ (ns : Namespace) (v s : VyNode) (type_name : String) (t vt : VType) (n : Int),
      firstName (.subscript v s) = some type_name →
      ns.lookup type_name = some t →
      t.asArrayAttr = true →
      v.getId ≠ some "DynArray" →
      get_index_value s = .ok n →
      typeFromAnn ns v = .ok vt →
      0 ≤ n →
      typeFromAnn ns (.subscript v s) = .ok (.sarray vt n) :=
  fun _ _ _ _ _ _ _ h1 h2 h3 h4 h5 h6 h7 =>
    typeFromAnn_subscript_array h1 h2 h3 h4 h5 h6 h7

theorem claim_C2_annotation_subscript_array_witness :
    typeFromAnn nsStd (.subscript (.name "bool") (.intNode 3)) = .ok (.sarray boolPrim 3) :=
  claim_C2_annotation_subscript_array nsStd (.name "bool") (.intNode 3) "bool" boolPrim
    boolPrim 3 rfl rfl rfl (by decide) rfl rfl (by decide)

/-- C3: the claim fails on the code.  A recursive resolution failure for the
element-type fragment whose kind is `UndeclaredDefinition` (an undeclared
leaf inside the array form) is not caught by the array branch handler, which
only catches `UnknownType`; it escapes `type_from_abi` unconverted, so the
caller sees `UndeclaredDefinition` naming the inner fragment rather than
`UnknownType` naming the whole descriptor.  Evaluation at the failing input
`{"type": "bogus[3]"}`. -/
theorem claim_C3_abi_array_error_leak :
    type_from_abi nsStd "bogus[3]" =
      .error (.undeclaredDefinition ("\x27bogus\x27 has not been declared.".toList)) := rfl

/-- C4: a tuple annotation resolves exactly when every element resolves, and
the resulting tuple type's i-th member is the resolution of the i-th element,
in source order. -/
theorem claim_C4_annotation_tuple :
    ∀ (ns : Namespace) (els : List VyNode) (ts : List VType),
      typeFromAnn ns (.tup els) = .ok (.tuple ts) ↔
        (ts.length = els.length ∧
         ∀ i (hi : i < els.length) (hj : i < ts.length),
           typeFromAnn ns (els.get ⟨i, hi⟩) = .ok (ts.get ⟨i, hj⟩)) := by
  intro ns els ts
  constructor
  · intro h
    rw [typeFromAnn] at h
    cases hl : typeFromAnnList ns els with
    | error e => rw [hl] at h; simp at h
    | ok types =>
        rw [hl] at h
        dsimp only at h
        simp only [TupleT, Except.ok.injEq, VType.tuple.injEq] at h
        subst h
        exact ⟨typeFromAnnList_ok_length hl, typeFromAnnList_ok_get hl⟩
  · rintro ⟨hlen, hall⟩
    rw [typeFromAnn, typeFromAnnList_of_all hlen hall]
    rfl

theorem claim_C4_annotation_tuple_witness :
    typeFromAnn nsStd (.tup [.name "bool", .name "uint256"]) =
      .ok (.tuple [boolPrim, uint256Prim]) :=
  (claim_C4_annotation_tuple nsStd [.name "bool", .name "uint256"]
      [boolPrim, uint256Prim]).mpr
    ⟨rfl, fun i hi _ =>
      match i, hi with
      | 0, _ => rfl
      | 1, _ => rfl⟩

/-- C5: the claim fails on the code.  For a leaf ABI string naming no
declared type, the namespace lookup raises `UndeclaredDefinition`, but the
leaf branch of `type_from_abi` only handles the Python builtin `KeyError`,
which `UndeclaredDefinition` is not; the lookup failure escapes unconverted
instead of becoming `UnknownType` mentioning the descriptor.  Evaluation at
the failing input `{"type": "bogus"}`. -/
theorem claim_C5_abi_unknown_leaf_leak :
    type_from_abi nsStd "bogus" =
      .error (.undeclaredDefinition ("\x27bogus\x27 has not been declared.".toList)) := rfl

/-- Branching shape of `BoolT.validate_numeric_op`: logical negation is
accepted, everything else delegates to the inherited rejecting default. -/
theorem boolT_numeric_op_cases (node : NumOpNode) :
    BoolT.validate_numeric_op node =
      if node.op = .notOp then .ok () else baseValidateNumericOp BoolT_id node := by
  unfold BoolT.validate_numeric_op
  cases hop : node.op <;> simp [hop]

/-- C6: in one enumeration family, member values are the lowercased declared
names, `values()` lists them in declaration order, `is_valid_value` is
membership among member values, and the strict order is comparison of
declaration indices, so it is irreflexive while `<=` is reflexive. -/
theorem claim_C6_string_enum_family :
    ∀ (cls : EnumClass) (i j : Nat) (hi : i < cls.variants.length)
      (hj : j < cls.variants.length),
      EnumMember.value ⟨cls, i⟩ = strLower cls.variants[i] ∧
      cls.vals = cls.variants.map strLower ∧
      (∀ s, cls.is_valid_value s = true ↔ ∃ m ∈ cls.opts, m.value = s) ∧
      EnumMember.lt ⟨cls, i⟩ ⟨cls, j⟩ = .ok (decide (i < j)) ∧
      EnumMember.lt ⟨cls, i⟩ ⟨cls, i⟩ = .ok false ∧
      EnumMember.le ⟨cls, i⟩ ⟨cls, i⟩ = .ok true := by
  intro cls i j hi hj
  refine ⟨?_, enumClass_vals cls, enumClass_is_valid_value cls, enum_lt_same cls i j hi hj,
    enum_lt_irrefl cls i hi, enum_le_refl cls i⟩
  unfold EnumMember.value EnumMember.declName
  rw [List.getD_eq_getElem cls.variants "" hi]

theorem claim_C6_string_enum_family_witness :
    EnumClass.vals ⟨"F", ["A", "B", "C"]⟩ = ["a", "b", "c"] ∧
    EnumMember.lt ⟨⟨"F", ["A", "B", "C"]⟩, 0⟩ ⟨⟨"F", ["A", "B", "C"]⟩, 1⟩ = .ok true ∧
    EnumMember.lt ⟨⟨"F", ["A", "B", "C"]⟩, 1⟩ ⟨⟨"F", ["A", "B", "C"]⟩, 2⟩ = .ok true ∧
    EnumMember.lt ⟨⟨"F", ["A", "B", "C"]⟩, 0⟩ ⟨⟨"F", ["A", "B", "C"]⟩, 0⟩ = .ok false ∧
    EnumMember.le ⟨⟨"F", ["A", "B", "C"]⟩, 0⟩ ⟨⟨"F", ["A", "B", "C"]⟩, 0⟩ = .ok true := by
  have h01 := claim_C6_string_enum_family ⟨"F", ["A", "B", "C"]⟩ 0 1 (by decide) (by decide)
  have h12 := claim_C6_string_enum_family ⟨"F", ["A", "B", "C"]⟩ 1 2 (by decide) (by decide)
  exact ⟨h01.2.1.trans rfl, h01.2.2.2.1, h12.2.2.2.1, h01.2.2.2.2.1, h01.2.2.2.2.2⟩

/-- C7: every comparison between members of two distinct enumeration
families raises the fatal internal error (`CompilerPanic`) instead of
returning a boolean. -/
theorem claim_C7_string_enum_cross_family :
    ∀ a b : EnumMember, a.cls ≠ b.cls →
      a.eq b = .error (.compilerPanic ("Can only compare like types.".toList)) ∧
      a.lt b = .error (.compilerPanic ("Can only compare like types.".toList)) ∧
      a.le b = .error (.compilerPanic ("Can only compare like types.".toList)) ∧
      a.gt b = .error (.compilerPanic ("Can only compare like types.".toList)) ∧
      a.ge b = .error (.compilerPanic ("Can only compare like types.".toList)) := by
  intro a b h
  have he : a.eq b = .error (.compilerPanic ("Can only compare like types.".toList)) := by
    unfold EnumMember.eq
    rw [if_neg h]
  have hlt : a.lt b = .error (.compilerPanic ("Can only compare like types.".toList)) := by
    unfold EnumMember.lt
    rw [if_neg h]
  have hle : a.le b = .error (.compilerPanic ("Can only compare like types.".toList)) := by
    unfold EnumMember.le
    rw [he]
  have hgt : a.gt b = .error (.compilerPanic ("Can only compare like types.".toList)) := by
    unfold EnumMember.gt
    rw [hle]
  have hge : a.ge b = .error (.compilerPanic ("Can only compare like types.".toList)) := by
    unfold EnumMember.ge
    rw [he]
  exact ⟨he, hlt, hle, hgt, hge⟩

theorem claim_C7_string_enum_cross_family_witness :
    EnumMember.eq ⟨⟨"F", ["A"]⟩, 0⟩ ⟨⟨"G", ["A"]⟩, 0⟩ =
      .error (.compilerPanic ("Can only compare like types.".toList)) ∧
    EnumMember.le ⟨⟨"F", ["A"]⟩, 0⟩ ⟨⟨"G", ["A"]⟩, 0⟩ =
      .error (.compilerPanic ("Can only compare like types.".toList)) :=
  ⟨(claim_C7_string_enum_cross_family ⟨⟨"F", ["A"]⟩, 0⟩ ⟨⟨"G", ["A"]⟩, 0⟩ (by decide)).1,
   (claim_C7_string_enum_cross_family ⟨⟨"F", ["A"]⟩, 0⟩ ⟨⟨"G", ["A"]⟩, 0⟩ (by decide)).2.2.1⟩

/-- C8: the boolean type's capability contract: `validate_literal` accepts a
non-null boolean constant and rejects a null constant with `InvalidLiteral`
identifying the node; `validate_numeric_op` succeeds exactly on logical
negation and delegates every other operator to the inherited rejecting
default; `validate_boolean_op` accepts unconditionally. -/
theorem claim_C8_bool_capability :
    (∀ b : Bool, BoolT.validate_literal (.nameConstant (some b)) = .ok ()) ∧
    BoolT.validate_literal (.nameConstant none) =
      .error (.invalidLiteral ("Invalid literal for type \x27bool\x27".toList)
        (.nameConstant none)) ∧
    (∀ node : NumOpNode, BoolT.validate_numeric_op node = .ok () ↔ node.op = .notOp) ∧
    (∀ node : NumOpNode, node.op ≠ .notOp →
      BoolT.validate_numeric_op node = baseValidateNumericOp BoolT_id node) ∧
    (∀ node : BoolOpNode, BoolT.validate_boolean_op node = .ok ()) := by
  refine ⟨?_, rfl, ?_, ?_, fun _ => rfl⟩
  · intro b; cases b <;> rfl
  · intro node
    rw [boolT_numeric_op_cases]
    by_cases hop : node.op = .notOp
    · simp [hop]
    · simp [hop, baseValidateNumericOp]
  · intro node hne
    rw [boolT_numeric_op_cases, if_neg hne]

theorem claim_C8_bool_capability_witness :
    BoolT.validate_literal (.nameConstant (some true)) = .ok () ∧
    BoolT.validate_numeric_op (.unaryOp .notOp) = .ok () ∧
    BoolT.validate_numeric_op (.binOp .add) =
      .error (.invalidOperation ("Cannot perform Add on bool".toList)) ∧
    BoolT.validate_boolean_op ⟨.andOp⟩ = .ok () :=
  ⟨claim_C8_bool_capability.1 true,
   (claim_C8_bool_capability.2.2.1 (.unaryOp .notOp)).mpr rfl,
   (claim_C8_bool_capability.2.2.2.1 (.binOp .add) (by decide)).trans rfl,
   claim_C8_bool_capability.2.2.2.2 ⟨.andOp⟩⟩

/-- C9: resolution is idempotent under round-tripping through the canonical
descriptor: over a well-formed namespace, re-resolving the canonical
descriptor of any accepted ABI string's type object yields the same type
object. -/
theorem claim_C9_abi_roundtrip :
    ∀ (ns : Namespace), NsWF ns → ∀ (s : String) (t : VType),
      type_from_abi ns s = .ok t →
      type_from_abi ns (canonicalDescriptor t).asString = .ok t := by
  intro ns hwf s t h
  exact abi_roundtrip_core ns hwf s.toList.length s.toList t le_rfl h

theorem claim_C9_abi_roundtrip_witness :
    NsWF nsStd ∧
    type_from_abi nsStd (canonicalDescriptor (.sarray uint8Prim 2)).asString =
      .ok (.sarray uint8Prim 2) := by
  have hwf : NsWF nsStd := by
    intro p hp
    simp only [nsStd, List.mem_cons, List.not_mem_nil, or_false] at hp
    rcases hp with rfl | rfl | rfl | rfl | rfl | rfl
    all_goals exact ⟨rfl, by decide, by decide, by decide, by decide⟩
  exact ⟨hwf, claim_C9_abi_roundtrip nsStd hwf "uint8[2]" (.sarray uint8Prim 2) rfl⟩

/-- C10: a subscript annotation over a leaf type without the `_as_array`
capability, or whose base is the `DynArray` spelling, resolves to the leaf
type object unchanged: no array is constructed, no error is raised, and the
subscript index (universally quantified here) is never examined. -/
theorem claim_C10_annotation_subscript_leaf :
    ∀ (ns : Namespace) (v s : VyNode) (type_name : String) (t : VType),
      firstName (.subscript v s) = some type_name →
      ns.lookup type_name = some t →
      (t.asArrayAttr = false ∨ v.getId = some "DynArray") →
      typeFromAnn ns (.subscript v s) = .ok t :=
  fun _ _ _ _ _ h1 h2 h3 => typeFromAnn_subscript_leaf h1 h2 h3

theorem claim_C10_annotation_subscript_leaf_witness :
    typeFromAnn [("foo", .prim "foo" false), ("DynArray", .prim "DynArray" true)]
      (.subscript (.name "foo") (.intNode 3)) = .ok (.prim "foo" false) ∧
    typeFromAnn [("foo", .prim "foo" false), ("DynArray", .prim "DynArray" true)]
      (.subscript (.name "DynArray") .otherNode) = .ok (.prim "DynArray" true) :=
  ⟨claim_C10_annotation_subscript_leaf _ (.name "foo") (.intNode 3) "foo"
      (.prim "foo" false) rfl rfl (.inl rfl),
   claim_C10_annotation_subscript_leaf _ (.name "DynArray") .otherNode "DynArray"
      (.prim "DynArray" true) rfl rfl (.inr rfl)⟩
